import Mathlib

set_option maxHeartbeats 1000000
set_option maxRecDepth 100000

/-!
Formal model of the doubletick CLI (credential lifecycle in `lib/auth.js`,
tracking protocol in `lib/tracking.js`, and the tracked-send sequencing in
`bin/doubletick.js` / `mcp-server.js`), together with theorems about
authentication state, token refresh, pixel injection, registration error
mapping and the send-after-register ordering.

Conventions of the embedding:
- JavaScript `undefined` / `null` / missing object fields are modelled with
  `Option`; JS truthiness of the values the code branches on is made
  explicit (`truthy`, `truthyNat`).
- Functions that can `throw` are modelled as `Except DtError _`; the
  distinct `Error` objects thrown by the JS code are mapped to the
  constructors of `DtError`.
- Network and randomness effects (fetch responses, `Math.random`,
  `crypto.randomUUID`, the token returned by a refresh) are passed in as
  explicit oracle arguments, so every function is a pure function of the
  store state and of its oracles.
-/

namespace DoubleTick

/-- JS truthiness of an optional string value: `undefined`, `null` and the
empty string `""` are falsy; any non-empty string is truthy. -/
def truthy : Option String → Bool
  | none => false
  | some s => s ≠ ""

/-- JS truthiness of an optional numeric value: `undefined`, `null` and `0`
are falsy. -/
def truthyNat : Option Nat → Bool
  | none => false
  | some n => n ≠ 0

/-- The token object stored under `config.tokens` (the fields that
`lib/auth.js` reads: `refresh_token`, `expiry_date`, and the access token
that `setCredentials` forwards). -/
structure Tokens where
  access_token : Option String
  refresh_token : Option String
  expiry_date : Option Nat
deriving DecidableEq, Repr

/-- The persisted credential record written by `authenticate` in
`lib/auth.js` (`~/.doubletick/credentials.json`). -/
structure Config where
  clientId : Option String
  clientSecret : Option String
  redirectUri : Option String
  tokens : Option Tokens
  email : Option String
  deviceId : Option String
  apiKey : Option String
deriving DecidableEq, Repr

/-- State of the persisted credential file: absent, present but not
parseable as JSON (`JSON.parse` throws), or present with a parsed record. -/
inductive FileState where
  | absent
  | corrupt
  | stored (cfg : Config)
deriving DecidableEq, Repr

/-- The distinct failures the modelled code can raise, one constructor per
`throw` site (the error taxonomy of the spec names them `NotAuthenticatedError`,
`CorruptStoreError`, `ReauthenticationRequiredError`, `RateLimitedError`,
`BackendError`, ...). -/
inductive DtError where
  /-- `Not authenticated. Run doubletick auth first.` thrown by
  `getAuthenticatedClient` / `getOAuth2Client` / `getApiKey` /
  `getUserEmail`. -/
  | notAuthenticated
  /-- The CLI / MCP guard `Not logged in. Run doubletick login first.` -/
  | notLoggedIn
  /-- `JSON.parse` failure on an existing credentials file. -/
  | corruptStore
  /-- `oauth2Client.getToken(code)` rejected. -/
  | tokenExchange (msg : String)
  /-- A provider fetch (userinfo) rejected. -/
  | providerFetch (msg : String)
  /-- `client.refreshAccessToken()` rejected: the refresh-token exchange
  failed and the error propagates to the caller. -/
  | reauthenticationRequired (msg : String)
  /-- The 429 branch of `registerTrack`. -/
  | rateLimited (msg : String)
  /-- The generic non-2xx branch of `registerTrack`. -/
  | backendError (status : Nat) (body : String)
  /-- The Gmail send step rejected. -/
  | gmailFailure (msg : String)
deriving DecidableEq, Repr

/-- Model of `loadConfig` from `lib/auth.js`: returns the parsed record when the
file exists, `null` when it does not, and throws when the file exists but
`JSON.parse` fails. -/
def loadConfig : FileState → Except DtError (Option Config)
  | .absent => .ok none
  | .corrupt => .error .corruptStore
  | .stored cfg => .ok (some cfg)

/-- Model of `isAuthenticated` from `lib/auth.js`:
`!!(config?.tokens?.refresh_token && config?.apiKey)`. -/
def isAuthenticatedE (fs : FileState) : Except DtError Bool :=
  match loadConfig fs with
  | .error e => .error e
  | .ok cfg =>
      .ok (truthy ((cfg.bind Config.tokens).bind Tokens.refresh_token)
            && truthy (cfg.bind Config.apiKey))

/-- The authentication invariant as the spec words it: the store holds a
record with both a (non-empty) refresh token and a (non-empty) backend API
key. -/
def specHasRefreshTokenAndApiKey : FileState → Bool
  | .stored cfg => truthy (cfg.tokens.bind Tokens.refresh_token) && truthy cfg.apiKey
  | _ => false

/-- The guard of `getOAuth2Client` from `lib/auth.js`: it throws unless
`config?.clientId` and `config?.clientSecret` are both truthy. -/
def hasOAuthClient (cfg : Config) : Bool :=
  truthy cfg.clientId && truthy cfg.clientSecret

/-- The refresh condition of `getAuthenticatedClient`:
`config.tokens.expiry_date && config.tokens.expiry_date < Date.now()`
(JS truthiness on the stored expiry, then a numeric comparison). -/
def tokenExpired (t : Tokens) (now : Nat) : Bool :=
  truthyNat t.expiry_date && decide (t.expiry_date.getD 0 < now)

/-- Outcome of one run of `getAuthenticatedClient`: the store state after
the run, how many times `client.refreshAccessToken()` was invoked, and the
returned config (the JS function returns `{ client, config }`; the client
handle is a pure function of the config, so the config stands for both). -/
structure GacOut where
  fs : FileState
  refreshCalls : Nat
  result : Except DtError Config
deriving Repr

/-- Model of `getAuthenticatedClient` from `lib/auth.js`, with `Date.now()` and the
outcome of `client.refreshAccessToken()` passed as oracles.  It loads the
config, fails when `config?.tokens?.refresh_token` is falsy, builds the
OAuth client (which fails when client id/secret are missing), and when the
stored expiry is truthy and in the past it performs one refresh; on refresh
success it writes the refreshed tokens back through `saveConfig` before
returning, on refresh failure the rejection propagates with the store
untouched. -/
def getAuthenticatedClient (fs : FileState) (now : Nat)
    (refreshOracle : Except String Tokens) : GacOut :=
  match loadConfig fs with
  | .error e => ⟨fs, 0, .error e⟩
  | .ok cfgO =>
    if truthy ((cfgO.bind Config.tokens).bind Tokens.refresh_token) = false then
      ⟨fs, 0, .error .notAuthenticated⟩
    else
      match cfgO with
      | none => ⟨fs, 0, .error .notAuthenticated⟩
      | some cfg =>
        if hasOAuthClient cfg = false then ⟨fs, 0, .error .notAuthenticated⟩
        else
          match cfg.tokens with
          | none => ⟨fs, 0, .error .notAuthenticated⟩
          | some t =>
            if tokenExpired t now then
              match refreshOracle with
              | .error m => ⟨fs, 1, .error (.reauthenticationRequired m)⟩
              | .ok newToks =>
                  let cfg2 : Config := { cfg with tokens := some newToks }
                  ⟨.stored cfg2, 1, .ok cfg2⟩
            else ⟨fs, 0, .ok cfg⟩

/- ### String utilities: JS `includes` / `replace` on character lists -/

/-- First index at which `pat` occurs in `s` (the character-list version of
`String.prototype.indexOf`); `none` when `pat` does not occur. -/
def findIdx (s pat : List Char) : Option Nat :=
  match s with
  | [] => if pat = [] then some 0 else none
  | _ :: cs =>
      if pat.isPrefixOf s then some 0 else (findIdx cs pat).map (fun n => n + 1)

/-- JS `String.prototype.includes`. -/
def strIncludes (s pat : String) : Bool :=
  (findIdx s.data pat.data).isSome

/-- The dollar character used by JS replacement patterns. -/
def dollarChar : Char := Char.ofNat 36

/-- The ampersand character. -/
def ampChar : Char := Char.ofNat 38

/-- The backquote character. -/
def backquoteChar : Char := Char.ofNat 96

/-- The single-quote character. -/
def singleQuoteChar : Char := Char.ofNat 39

/-- ECMA-262 `GetSubstitution` for a string (non-regex) search value:
in the replacement string, `$$` yields a dollar sign, `$&` the matched
substring, a dollar followed by a backquote the part before the match, a
dollar followed by a single quote the part after the match; any other
dollar is kept literally. -/
def substDollar (rep matched before after : List Char) : List Char :=
  match rep with
  | [] => []
  | c :: rest =>
    if c = dollarChar then
      match rest with
      | [] => [c]
      | d :: rest2 =>
        if d = dollarChar then dollarChar :: substDollar rest2 matched before after
        else if d = ampChar then matched ++ substDollar rest2 matched before after
        else if d = backquoteChar then before ++ substDollar rest2 matched before after
        else if d = singleQuoteChar then after ++ substDollar rest2 matched before after
        else c :: d :: substDollar rest2 matched before after
    else c :: substDollar rest matched before after

/-- JS `String.prototype.replace` with a string search value: replaces the
first occurrence only, applying `GetSubstitution` to the replacement. -/
def jsReplaceFirst (s pat rep : List Char) : List Char :=
  match findIdx s pat with
  | none => s
  | some i =>
      s.take i ++ substDollar rep pat (s.take i) (s.drop (i + pat.length))
        ++ s.drop (i + pat.length)

/-- String wrapper for `jsReplaceFirst`. -/
def strReplaceFirst (s pat rep : String) : String :=
  ⟨jsReplaceFirst s.data pat.data rep.data⟩

/-- Returns `true` when the string contains no dollar character (so JS replacement
patterns cannot fire inside it). -/
def noDollar (s : String) : Bool :=
  s.data.all (fun c => c != dollarChar)

/- ### Tracking pixel injection (`lib/tracking.js`) -/

/-- Constant `API_BASE` from `lib/tracking.js`. -/
def apiBase : String := "https://api.doubletickr.com"

/-- The closing body tag `injectPixel` searches for. -/
def bodyCloseTag : String := "</body>"

/-- The pixel markup built by `injectPixel` for a tracking id and the
cache-busting token `rand` drawn from `Math.random`. -/
def pixelStr (trackingId rand : String) : String :=
  "<img src=\"" ++ apiBase ++ "/img?t=" ++ trackingId ++ "&r=" ++ rand
    ++ "\" width=\"1\" height=\"1\" style=\"display:none;border:0;\" alt=\"\">"

/-- Model of `injectPixel` from `lib/tracking.js`: when the html contains `</body>`
the pixel is spliced in before it via `String.prototype.replace` (first
occurrence), otherwise the pixel is appended. The per-call random token is
an oracle argument. -/
def injectPixel (html trackingId rand : String) : String :=
  let pixel := pixelStr trackingId rand
  if strIncludes html bodyCloseTag then
    strReplaceFirst html bodyCloseTag (pixel ++ bodyCloseTag)
  else html ++ pixel

/- ### Tracking registration (`lib/tracking.js`) -/

/-- Model of `getApiKey` from `lib/auth.js`: throws unless `config?.apiKey` is
truthy. -/
def getApiKey (fs : FileState) : Except DtError String :=
  match loadConfig fs with
  | .error e => .error e
  | .ok cfgO =>
    match cfgO.bind Config.apiKey with
    | some k => if k = "" then .error .notAuthenticated else .ok k
    | none => .error .notAuthenticated

/-- Model of `getUserEmail` from `lib/auth.js`: throws unless `config?.email` is
truthy. -/
def getUserEmail (fs : FileState) : Except DtError String :=
  match loadConfig fs with
  | .error e => .error e
  | .ok cfgO =>
    match cfgO.bind Config.email with
    | some e => if e = "" then .error .notAuthenticated else .ok e
    | none => .error .notAuthenticated

/-- An HTTP response as the code observes it: a status and a body text
(`fetch` does not throw on non-2xx statuses). -/
structure HttpResponse where
  status : Nat
  body : String
deriving DecidableEq, Repr

/-- JS `Response.ok`: status in the inclusive range 200–299. -/
def respOk (r : HttpResponse) : Bool :=
  200 ≤ r.status && r.status ≤ 299

/-- The quota-exceeded message thrown by `registerTrack` on a 429. -/
def rateLimitMsg : String :=
  "Weekly tracking limit reached. Upgrade to Pro for unlimited tracking."

/-- The argument object of `registerTrack`. -/
structure TrackInput where
  trackingId : String
  recipientEmail : String
  emailSubject : Option String
deriving DecidableEq, Repr

/-- First `n` characters of a string (`String.prototype.substring(0, n)`). -/
def strTakeN (n : Nat) (s : String) : String :=
  ⟨s.data.take n⟩

/-- The JSON payload `registerTrack` POSTs to the backend: the tracking
triple plus the authenticated sender, with the subject truncated to 500
characters (`emailSubject?.substring(0, 500)`). -/
structure TrackPayload where
  trackingId : String
  senderEmail : String
  recipientEmail : String
  emailSubject : Option String
deriving DecidableEq, Repr

/-- Builds the registration payload from the input and sender. -/
def trackPayload (senderEmail : String) (inp : TrackInput) : TrackPayload :=
  { trackingId := inp.trackingId
    senderEmail := senderEmail
    recipientEmail := inp.recipientEmail
    emailSubject := inp.emailSubject.map (strTakeN 500) }

/-- Model of `registerTrack` from `lib/tracking.js`: reads the API key and sender
email (throwing when absent), POSTs the payload, and maps the response:
non-ok with status 429 throws the quota message, any other non-ok status
throws the generic failure carrying status and body, and an ok response
resolves with the parsed body (modelled as the body text). -/
def registerTrack (fs : FileState) (inp : TrackInput) (resp : HttpResponse) :
    Except DtError String :=
  match getApiKey fs with
  | .error e => .error e
  | .ok _ =>
    match getUserEmail fs with
    | .error e => .error e
    | .ok sender =>
      let _payload := trackPayload sender inp
      if respOk resp then .ok resp.body
      else if resp.status = 429 then .error (.rateLimited rateLimitMsg)
      else .error (.backendError resp.status resp.body)

/- ### Login flow (`authenticate` in `lib/auth.js`) -/

/-- Outcome of one `fetch`/`await` as the surrounding `try`/`catch`
observes it: either the awaited promise rejected with a message, or it
returned a value. -/
inductive FetchOut (α : Type) where
  | thrown (msg : String)
  | returned (v : α)
deriving DecidableEq, Repr

/-- The parsed JSON of the provisioning response; the `apiKey` field may be
absent (for instance when the backend answered a non-2xx status with an
error JSON body — the code never checks `provisionRes.ok`). -/
structure ProvisionJson where
  apiKey : Option String
deriving DecidableEq, Repr

/-- Outcome of one `authenticate` run: the store afterwards, whether the
provisioning warning was printed, and the returned config. -/
structure AuthRunOut where
  fs : FileState
  warned : Bool
  result : Except DtError Config
deriving Repr

/-- The fixed redirect URI of the login flow. -/
def redirectUriDefault : String := "http://localhost:3456"

/-- Model of `authenticate` from `lib/auth.js`, starting from the point where the
authorization code has been received (the browser/listener stage is not
modelled; claims about this function presuppose it was passed).  The token
exchange and the userinfo fetch abort the flow when they reject, with the
store untouched.  Provisioning runs inside `try`/`catch`: a rejected fetch
or JSON parse sets the warning and leaves `apiKey` undefined; a returned
response has its parsed JSON used without any `provisionRes.ok` check.
The record is then saved with `apiKey: apiKey || null`. -/
def authenticate (clientId clientSecret : Option String)
    (exchange : FetchOut Tokens) (userinfo : FetchOut String)
    (provision : FetchOut ProvisionJson) (deviceId : String)
    (fs : FileState) : AuthRunOut :=
  match exchange with
  | .thrown m => ⟨fs, false, .error (.tokenExchange m)⟩
  | .returned toks =>
    match userinfo with
    | .thrown m => ⟨fs, false, .error (.providerFetch m)⟩
    | .returned email =>
      let keyAndWarn : Option String × Bool :=
        match provision with
        | .thrown _ => (none, true)
        | .returned j => (j.apiKey, false)
      let cfg : Config :=
        { clientId := clientId
          clientSecret := clientSecret
          redirectUri := some redirectUriDefault
          tokens := some toks
          email := some email
          deviceId := some deviceId
          apiKey := if truthy keyAndWarn.1 then keyAndWarn.1 else none }
      ⟨.stored cfg, keyAndWarn.2, .ok cfg⟩

/- ### Tracked send sequencing (`bin/doubletick.js` and `mcp-server.js`) -/

/-- The externally observable steps of a tracked-send run. -/
inductive SendEvent where
  | registerCall (trackingId : String)
  | gmailSend (htmlBody : String)
deriving DecidableEq, Repr

/-- Whether an event is the Gmail send step. -/
def SendEvent.isSend : SendEvent → Bool
  | .gmailSend _ => true
  | _ => false

/-- Outcome of a tracked-send run: the ordered effect trace and the final
result. -/
structure SendOut where
  events : List SendEvent
  result : Except DtError String
deriving Repr

/-- The markdown-path wrapper of the send handlers: if the rendered body
does not contain `<html` it is wrapped in a full document. -/
def wrapHtml (b : String) : String :=
  if strIncludes b "<html" then b
  else "<!DOCTYPE html><html><body>" ++ b ++ "</body></html>"

/-- The `send` command action of `bin/doubletick.js`: guard on
`isAuthenticated`, build the html body (raw with `--html`, else the
rendered markdown, wrapped), generate a tracking id and inject the pixel,
register the track, and only then call the Gmail send.  `renderedMarkdown`
stands for `await marked(body)` (an external collaborator), `gmailResult`
for the Gmail API outcome. -/
def sendTrackedCli (fs : FileState) (rawHtml : Bool)
    (bodyText renderedMarkdown toAddr subject trackingId rand : String)
    (regResp : HttpResponse) (gmailResult : Except DtError String) : SendOut :=
  match isAuthenticatedE fs with
  | .error e => ⟨[], .error e⟩
  | .ok false => ⟨[], .error .notLoggedIn⟩
  | .ok true =>
    let htmlBody := if rawHtml then bodyText else wrapHtml renderedMarkdown
    let injected := injectPixel htmlBody trackingId rand
    match registerTrack fs ⟨trackingId, toAddr, some subject⟩ regResp with
    | .error e => ⟨[.registerCall trackingId], .error e⟩
    | .ok _ => ⟨[.registerCall trackingId, .gmailSend injected], gmailResult⟩

/-- The text the MCP tool returns when not authenticated. -/
def mcpNotAuthText : String :=
  "Not authenticated. Run `doubletick login` in the terminal first."

/-- The `send_tracked_email` tool of `mcp-server.js`: same sequencing as
the CLI `send` action, except that the unauthenticated case resolves with
an explanatory text instead of failing. -/
def sendTrackedMcp (fs : FileState) (rawHtml : Bool)
    (bodyText renderedMarkdown toAddr subject trackingId rand : String)
    (regResp : HttpResponse) (gmailResult : Except DtError String) : SendOut :=
  match isAuthenticatedE fs with
  | .error e => ⟨[], .error e⟩
  | .ok false => ⟨[], .ok mcpNotAuthText⟩
  | .ok true =>
    let htmlBody := if rawHtml then bodyText else wrapHtml renderedMarkdown
    let injected := injectPixel htmlBody trackingId rand
    match registerTrack fs ⟨trackingId, toAddr, some subject⟩ regResp with
    | .error e => ⟨[.registerCall trackingId], .error e⟩
    | .ok _ => ⟨[.registerCall trackingId, .gmailSend injected], gmailResult⟩

/- ### Credential persistence (`saveConfig` / `ensureConfigDir`) -/

/-- The filesystem side effects `saveConfig` can issue. -/
inductive FsOp where
  | mkdirRec (path : String) (mode : Nat)
  | fileWrite (path : String) (content : String) (mode : Nat)
deriving DecidableEq, Repr

/-- Path `CONFIG_DIR` for a given home directory. -/
def configDirPath (home : String) : String := home ++ "/.doubletick"

/-- Path `TOKEN_PATH` for a given home directory. -/
def tokenPath (home : String) : String := configDirPath home ++ "/credentials.json"

/-- Model of `ensureConfigDir`: create the config directory with mode `0o700` when
it does not exist. -/
def ensureConfigDirOps (home : String) (dirExists : Bool) : List FsOp :=
  if dirExists then [] else [.mkdirRec (configDirPath home) 0o700]

/-- JSON string escaping (the two escapes relevant to the stored fields). -/
def jsonEscChar (c : Char) : String :=
  if c = Char.ofNat 92 then "\\\\"
  else if c = Char.ofNat 34 then "\\\"" else String.singleton c

/-- Escape a whole string for JSON output. -/
def jsonEsc (s : String) : String := String.join (s.data.map jsonEscChar)

/-- Render an optional string field (`null` for an absent value). -/
def jsonOptStr : Option String → String
  | none => "null"
  | some s => "\"" ++ jsonEsc s ++ "\""

/-- Render an optional numeric field. -/
def jsonOptNat : Option Nat → String
  | none => "null"
  | some n => toString n

/-- Output of `JSON.stringify(tokens, null, 2)` nested at depth one. -/
def serializeTokens (t : Tokens) : String :=
  "\x7b\n    \"access_token\": " ++ jsonOptStr t.access_token
    ++ ",\n    \"refresh_token\": " ++ jsonOptStr t.refresh_token
    ++ ",\n    \"expiry_date\": " ++ jsonOptNat t.expiry_date ++ "\n  \x7d"

/-- Output of `JSON.stringify(config, null, 2)` for the stored record shape. -/
def serializeConfig (cfg : Config) : String :=
  "\x7b\n  \"clientId\": " ++ jsonOptStr cfg.clientId
    ++ ",\n  \"clientSecret\": " ++ jsonOptStr cfg.clientSecret
    ++ ",\n  \"redirectUri\": " ++ jsonOptStr cfg.redirectUri
    ++ ",\n  \"tokens\": "
    ++ (match cfg.tokens with | none => "null" | some t => serializeTokens t)
    ++ ",\n  \"email\": " ++ jsonOptStr cfg.email
    ++ ",\n  \"deviceId\": " ++ jsonOptStr cfg.deviceId
    ++ ",\n  \"apiKey\": " ++ jsonOptStr cfg.apiKey ++ "\n\x7d"

/-- Model of `saveConfig` from `lib/auth.js` as its filesystem effect trace:
`ensureConfigDir()` then one direct `fs.writeFileSync(TOKEN_PATH, json,
{ mode: 0o600 })` — no temp file, no rename. -/
def saveConfigOps (home : String) (dirExists : Bool) (cfg : Config) : List FsOp :=
  ensureConfigDirOps home dirExists
    ++ [.fileWrite (tokenPath home) (serializeConfig cfg) 0o600]

/-- All prefixes of a string, shortest first. -/
def strPrefixes (s : String) : List String :=
  (List.range (s.length + 1)).map (fun n => strTakeN n s)

/-- Contents of the file at `target` that a concurrent reader can observe
while an effect trace executes, starting from previous content `prev`
(`none` = file absent).  A direct overwrite first truncates and then
appends, so every prefix of the new content is observable; operations on
other paths leave the target unchanged. -/
def opsVisibleAt (target : String) : Option String → List FsOp → List (Option String)
  | prev, [] => [prev]
  | prev, FsOp.mkdirRec _ _ :: rest => prev :: opsVisibleAt target prev rest
  | prev, FsOp.fileWrite p c _ :: rest =>
      if p = target then (strPrefixes c).map some ++ opsVisibleAt target (some c) rest
      else prev :: opsVisibleAt target prev rest

/- ### Logout (spec-modelled) -/

/-- Modelled from the spec: the function `logout` of the repository is imported from
`lib/auth.js` by `bin/doubletick.js` but its definition is not among the
provided source files.  Per the spec, `clear()` removes the persisted
record file entirely and clearing an already-absent store is not an
error. -/
def logoutClear : FileState → Except DtError FileState
  | .absent => .ok .absent
  | .corrupt => .ok .absent
  | .stored _ => .ok .absent

/-- Iterates `n` consecutive logout calls. -/
def logoutClearN : Nat → FileState → Except DtError FileState
  | 0, fs => .ok fs
  | n + 1, fs => (logoutClearN n fs).bind logoutClear

/-- A fully-populated example credential used by concrete evaluations. -/
def cfgFull : Config :=
  { clientId := some "client-id"
    clientSecret := some "client-secret"
    redirectUri := some "http://localhost:3456"
    tokens := some { access_token := some "at0"
                     refresh_token := some "rt0"
                     expiry_date := some 5 }
    email := some "user@example.com"
    deviceId := some "device-1"
    apiKey := some "key-1" }

/-- The same credential with the stored expiry equal to `0` (epoch origin,
an instant in the past of every positive `Date.now()`). -/
def cfgExpiryZero : Config :=
  { cfgFull with
      tokens := some { access_token := some "at0"
                       refresh_token := some "rt0"
                       expiry_date := some 0 } }

/-- The refreshed token set an example refresh oracle returns. -/
def toksFresh : Tokens :=
  { access_token := some "at1", refresh_token := some "rt0", expiry_date := some 99 }

/- ### Theorems -/

/-- Claim C1: `isAuthenticated()` returns true iff the stored credential
has both a refresh token and a backend API key, and on an absent store it
returns false without throwing. -/
theorem c1_isAuthenticated_iff (fs : FileState) :
    (isAuthenticatedE fs = .ok true ↔ specHasRefreshTokenAndApiKey fs = true)
    ∧ isAuthenticatedE .absent = .ok false := by
  refine ⟨?_, rfl⟩
  cases fs with
  | absent => simp [isAuthenticatedE, loadConfig, specHasRefreshTokenAndApiKey, truthy]
  | corrupt => simp [isAuthenticatedE, loadConfig, specHasRefreshTokenAndApiKey]
  | stored cfg =>
      simp [isAuthenticatedE, loadConfig, specHasRefreshTokenAndApiKey, Option.bind]

/-- Claim C3, counterexample: a stored credential whose stored expiry
instant is `0` — in the past of `Date.now() = 1700000000000` — on which
`getAuthenticatedClient` performs zero refresh calls (the claim demands
exactly one), because the JS guard `config.tokens.expiry_date && ...`
treats the numeric value `0` as falsy. -/
theorem c3_counterexample :
    (0 : Nat) < 1700000000000
    ∧ specHasRefreshTokenAndApiKey (.stored cfgExpiryZero) = true
    ∧ (getAuthenticatedClient (.stored cfgExpiryZero) 1700000000000
        (.ok toksFresh)).refreshCalls = 0 := by
  refine ⟨by decide, by decide, by decide⟩

/-- Claim C3, amended: for a stored credential with a (non-empty) refresh
token and OAuth client id/secret, if the stored expiry is truthy (present
and non-zero) and in the past then `getAuthenticatedClient` performs
exactly one refresh call, and when the refresh succeeds the refreshed
tokens are persisted to the store before the call returns; otherwise it
performs zero refresh calls and leaves the store unchanged. -/
theorem c3_refresh_exactly_once (cfg : Config) (t : Tokens) (now : Nat)
    (oracle : Except String Tokens) (newToks : Tokens)
    (htok : cfg.tokens = some t)
    (hrt : truthy t.refresh_token = true)
    (hcl : hasOAuthClient cfg = true) :
    (tokenExpired t now = true →
        (getAuthenticatedClient (.stored cfg) now oracle).refreshCalls = 1
        ∧ getAuthenticatedClient (.stored cfg) now (.ok newToks) =
            ⟨.stored { cfg with tokens := some newToks }, 1,
              .ok { cfg with tokens := some newToks }⟩)
    ∧ (tokenExpired t now = false →
        getAuthenticatedClient (.stored cfg) now oracle = ⟨.stored cfg, 0, .ok cfg⟩) := by
  constructor
  · intro hexp
    unfold getAuthenticatedClient loadConfig
    simp only [htok, Option.bind, hrt, hcl, hexp]
    constructor
    · cases oracle <;> simp [htok, hrt, hcl, hexp]
    · simp [htok, hrt, hcl, hexp]
  · intro hexp
    unfold getAuthenticatedClient loadConfig
    simp [htok, Option.bind, hrt, hcl, hexp]

/-- Claim C3, witness: the amended theorem evaluated on a concrete expired
credential (`expiry_date = 5 < now = 10`) and a concrete fresh one
(`now = 3 < 5`). -/
theorem c3_refresh_exactly_once_witness :
    cfgFull.tokens = some { access_token := some "at0", refresh_token := some "rt0",
                            expiry_date := some 5 }
    ∧ tokenExpired { access_token := some "at0", refresh_token := some "rt0",
                     expiry_date := some 5 } 10 = true
    ∧ (getAuthenticatedClient (.stored cfgFull) 10 (.ok toksFresh)).refreshCalls = 1
    ∧ getAuthenticatedClient (.stored cfgFull) 3 (.ok toksFresh) =
        ⟨.stored cfgFull, 0, .ok cfgFull⟩ := by
  have h := c3_refresh_exactly_once cfgFull
    { access_token := some "at0", refresh_token := some "rt0", expiry_date := some 5 }
    10 (.ok toksFresh) toksFresh (by decide) (by decide) (by decide)
  have h3 := c3_refresh_exactly_once cfgFull
    { access_token := some "at0", refresh_token := some "rt0", expiry_date := some 5 }
    3 (.ok toksFresh) toksFresh (by decide) (by decide) (by decide)
  exact ⟨by decide, by decide, (h.1 (by decide)).1, h3.2 (by decide)⟩

/-- Claim C4: with a failing refresh oracle, `getAuthenticatedClient`
leaves the store unchanged on every store state (the store is never
cleared by a refresh failure), and whenever the refresh exchange is
actually invoked (at least one refresh call happened) the operation fails
with the propagated refresh-rejection error. -/
theorem c4_refresh_failure_preserves_store (fs : FileState) (now : Nat) (m : String) :
    (getAuthenticatedClient fs now (.error m)).fs = fs
    ∧ ((getAuthenticatedClient fs now (.error m)).refreshCalls ≠ 0 →
        (getAuthenticatedClient fs now (.error m)).result =
          .error (.reauthenticationRequired m)) := by
  cases fs with
  | absent => exact ⟨rfl, by intro h; exact absurd rfl h⟩
  | corrupt => exact ⟨rfl, by intro h; exact absurd rfl h⟩
  | stored cfg =>
    unfold getAuthenticatedClient loadConfig
    cases htr : truthy (cfg.tokens.bind Tokens.refresh_token) with
    | false => simp [htr]
    | true =>
      cases hcl : hasOAuthClient cfg with
      | false => simp [htr, hcl]
      | true =>
        cases ht : cfg.tokens with
        | none => simp [htr, hcl, ht]
        | some t =>
          rw [ht] at htr
          simp only [Option.bind] at htr
          cases hexp : tokenExpired t now with
          | false => simp [htr, hcl, ht, hexp]
          | true => simp [htr, hcl, ht, hexp]

/-- Claim C4, witness: a concrete expired credential with a failing
refresh: the store round-trips and the error is the propagated refresh
rejection. -/
theorem c4_refresh_failure_preserves_store_witness :
    (getAuthenticatedClient (.stored cfgFull) 10 (.error "invalid_grant")).fs =
      .stored cfgFull
    ∧ (getAuthenticatedClient (.stored cfgFull) 10 (.error "invalid_grant")).result =
        .error (.reauthenticationRequired "invalid_grant") := by
  have h := c4_refresh_failure_preserves_store (.stored cfgFull) 10 "invalid_grant"
  exact ⟨h.1, h.2 (by decide)⟩

/- ### Helper lemmas on the string machinery -/

/-- Appending strings appends the underlying character lists. -/
theorem strDataAppend (a b : String) : (a ++ b).data = a.data ++ b.data := rfl

/-- A dollar-free replacement string passes through `GetSubstitution`
unchanged. -/
theorem substDollar_noDollar (rep matched before after : List Char)
    (h : rep.all (fun c => c != dollarChar) = true) :
    substDollar rep matched before after = rep := by
  induction rep with
  | nil => rfl
  | cons c rest ih =>
      simp only [List.all_cons, Bool.and_eq_true, bne_iff_ne, ne_eq] at h
      unfold substDollar
      rw [if_neg h.1]
      exact congrArg (List.cons c) (ih (by simpa using h.2))

/-- The predicate `noDollar` distributes over append. -/
theorem noDollar_append (a b : String) :
    noDollar (a ++ b) = (noDollar a && noDollar b) := by
  simp [noDollar, strDataAppend, List.all_append]

/-- The pixel markup is dollar-free when the tracking id and the random
token are. -/
theorem pixelStr_noDollar (trackingId rand : String)
    (hid : noDollar trackingId = true) (hrand : noDollar rand = true) :
    noDollar (pixelStr trackingId rand) = true := by
  unfold pixelStr
  simp only [noDollar_append, hid, hrand, Bool.and_true, Bool.true_and]
  decide

/-- At a hit index, the pattern is a prefix of the remaining suffix. -/
theorem findIdx_hit {s pat : List Char} :
    ∀ {i : Nat}, findIdx s pat = some i → pat.isPrefixOf (s.drop i) = true := by
  induction s with
  | nil =>
      intro i h
      unfold findIdx at h
      by_cases hp : pat = []
      · subst hp
        simp at h
        subst h
        decide
      · simp [hp] at h
  | cons a cs ih =>
      intro i h
      unfold findIdx at h
      by_cases hp : pat.isPrefixOf (a :: cs) = true
      · rw [if_pos hp] at h
        cases h
        simpa using hp
      · rw [if_neg hp] at h
        obtain ⟨j, hj, hji⟩ := Option.map_eq_some'.mp h
        subst hji
        rw [List.drop_succ_cons]
        exact ih hj

/-- Function `findIdx` returns the first hit: no earlier index carries the
pattern. -/
theorem findIdx_min {s pat : List Char} :
    ∀ {i : Nat}, findIdx s pat = some i →
      ∀ j, j < i → pat.isPrefixOf (s.drop j) = false := by
  induction s with
  | nil =>
      intro i h j hj
      unfold findIdx at h
      by_cases hp : pat = []
      · subst hp
        simp at h
        omega
      · simp [hp] at h
  | cons a cs ih =>
      intro i h j hj
      unfold findIdx at h
      by_cases hp : pat.isPrefixOf (a :: cs) = true
      · rw [if_pos hp] at h
        cases h
        omega
      · rw [if_neg hp] at h
        obtain ⟨k, hk, hki⟩ := Option.map_eq_some'.mp h
        subst hki
        cases j with
        | zero =>
            simpa using Bool.eq_false_iff.mpr (fun hc => hp hc)
        | succ j' =>
            rw [List.drop_succ_cons]
            exact ih hk j' (by omega)

/-- Decomposition of a list at the first hit of a pattern. -/
theorem findIdx_decomp {s pat : List Char} {i : Nat}
    (h : findIdx s pat = some i) :
    s = s.take i ++ pat ++ s.drop (i + pat.length) := by
  have hp := findIdx_hit h
  rw [List.isPrefixOf_iff_prefix] at hp
  obtain ⟨t, ht⟩ := hp
  have h1 : s.drop i = pat ++ t := ht.symm
  have h2 : s.drop (i + pat.length) = t := by
    rw [← List.drop_drop, h1, List.drop_left]
  calc s = s.take i ++ s.drop i := (List.take_append_drop i s).symm
    _ = s.take i ++ (pat ++ t) := by rw [h1]
    _ = s.take i ++ pat ++ s.drop (i + pat.length) := by
          rw [h2, List.append_assoc]

/-- At a hit, `jsReplaceFirst` takes the prefix, the substituted
replacement, and the suffix after the match. -/
theorem jsReplaceFirst_some {s pat rep : List Char} {i : Nat}
    (h : findIdx s pat = some i) :
    jsReplaceFirst s pat rep
      = s.take i ++ substDollar rep pat (s.take i) (s.drop (i + pat.length))
          ++ s.drop (i + pat.length) := by
  unfold jsReplaceFirst
  rw [h]

/-- Where the html has a closing body tag, `injectPixel` (for a
dollar-free id and token) splices the pixel right before the first
occurrence. -/
theorem injectPixel_at (html trackingId rand : String)
    (hid : noDollar trackingId = true) (hrand : noDollar rand = true)
    {i : Nat} (h : findIdx html.data bodyCloseTag.data = some i) :
    (injectPixel html trackingId rand).data
      = html.data.take i ++ (pixelStr trackingId rand).data ++ bodyCloseTag.data
          ++ html.data.drop (i + bodyCloseTag.data.length) := by
  have hnd : (pixelStr trackingId rand ++ bodyCloseTag).data.all
      (fun c => c != dollarChar) = true := by
    have h2 : noDollar (pixelStr trackingId rand ++ bodyCloseTag) = true := by
      rw [noDollar_append, pixelStr_noDollar trackingId rand hid hrand]
      decide
    simpa [noDollar] using h2
  have hinc : strIncludes html bodyCloseTag = true := by
    unfold strIncludes
    rw [h]
    rfl
  have e1 : injectPixel html trackingId rand
      = strReplaceFirst html bodyCloseTag (pixelStr trackingId rand ++ bodyCloseTag) := by
    simp [injectPixel, hinc]
  rw [e1]
  show jsReplaceFirst html.data bodyCloseTag.data
      (pixelStr trackingId rand ++ bodyCloseTag).data = _
  rw [jsReplaceFirst_some h, substDollar_noDollar _ _ _ _ hnd, strDataAppend]
  simp [List.append_assoc]

/-- Claim C10: where the html contains at least one `</body>`, the pixel
(for a dollar-free tracking id and random token) is inserted immediately
before the first occurrence only — the prefix before it carries no earlier
occurrence, and both the prefix and the suffix from the first `</body>` on
are preserved verbatim; where the html has no `</body>`, the result is
exactly the html followed by the pixel. -/
theorem c10_inject_first_occurrence (html trackingId rand : String)
    (hid : noDollar trackingId = true) (hrand : noDollar rand = true) :
    (∀ i, findIdx html.data bodyCloseTag.data = some i →
        (injectPixel html trackingId rand).data
            = html.data.take i ++ (pixelStr trackingId rand).data ++ bodyCloseTag.data
                ++ html.data.drop (i + bodyCloseTag.data.length)
          ∧ html.data = html.data.take i ++ bodyCloseTag.data
                ++ html.data.drop (i + bodyCloseTag.data.length)
          ∧ ∀ j, j < i → bodyCloseTag.data.isPrefixOf (html.data.drop j) = false)
    ∧ (strIncludes html bodyCloseTag = false →
        injectPixel html trackingId rand = html ++ pixelStr trackingId rand) := by
  constructor
  · intro i h
    exact ⟨injectPixel_at html trackingId rand hid hrand h,
      findIdx_decomp h, findIdx_min h⟩
  · intro h
    simp [injectPixel, h]

/-- Claim C10, witness: the pixel lands exactly before the sole `</body>`
of a concrete document (first occurrence at index 14). -/
theorem c10_inject_first_occurrence_witness :
    noDollar "id1" = true
    ∧ findIdx ("<html><body>hi</body></html>" : String).data
        ("</body>" : String).data = some 14
    ∧ (injectPixel "<html><body>hi</body></html>" "id1" "r8").data
        = ("<html><body>hi</body></html>" : String).data.take 14
            ++ (pixelStr "id1" "r8").data ++ ("</body>" : String).data
            ++ ("<html><body>hi</body></html>" : String).data.drop
                  (14 + ("</body>" : String).data.length) := by
  have h := (c10_inject_first_occurrence "<html><body>hi</body></html>" "id1" "r8"
    (by decide) (by decide)).1 14 (by decide)
  exact ⟨by decide, by decide, h.1⟩

/-- Claim C10, counterexample: for a tracking id containing the JS
replacement pattern dollar-dollar, what is spliced in before the first
`</body>` is not the pixel markup for that id (the dollars collapse), so
the claim fails for such ids. -/
theorem c10_counterexample :
    strIncludes "q</body>" bodyCloseTag = true
    ∧ findIdx ("q</body>" : String).data bodyCloseTag.data = some 1
    ∧ (injectPixel "q</body>" "$$" "r").data
        ≠ ("q</body>" : String).data.take 1 ++ (pixelStr "$$" "r").data
            ++ bodyCloseTag.data
            ++ ("q</body>" : String).data.drop (1 + bodyCloseTag.data.length) := by
  refine ⟨by decide, by decide, by decide⟩

/-- Claim C7 (amended to dollar-free tracking ids, which includes every id
`generateTrackingId` produces): one `injectPixel` call inserts the pixel
markup — which embeds the tracking id and the per-call random token — at
exactly one position: immediately before a closing body tag when the
markup contains one, at the very end otherwise. -/
theorem c7_inject_one_marker (html trackingId rand : String)
    (hid : noDollar trackingId = true) (hrand : noDollar rand = true) :
    (∃ pre post : String, pixelStr trackingId rand
        = pre ++ trackingId ++ (post ++ rand ++ "\" width=\"1\" height=\"1\" style=\"display:none;border:0;\" alt=\"\">"))
    ∧ (strIncludes html bodyCloseTag = true →
        ∃ a b : List Char,
          (injectPixel html trackingId rand).data
              = a ++ (pixelStr trackingId rand).data ++ b
            ∧ a ++ b = html.data
            ∧ ∃ c, b = bodyCloseTag.data ++ c)
    ∧ (strIncludes html bodyCloseTag = false →
        injectPixel html trackingId rand = html ++ pixelStr trackingId rand) := by
  refine ⟨⟨"<img src=\"" ++ apiBase ++ "/img?t=", "&r=", ?_⟩, ?_, ?_⟩
  · apply String.ext
    simp [pixelStr, strDataAppend, List.append_assoc]
  · intro hinc
    have hsome : ∃ i, findIdx html.data bodyCloseTag.data = some i := by
      unfold strIncludes at hinc
      exact Option.isSome_iff_exists.mp hinc
    obtain ⟨i, h⟩ := hsome
    refine ⟨html.data.take i,
      bodyCloseTag.data ++ html.data.drop (i + bodyCloseTag.data.length), ?_, ?_,
      html.data.drop (i + bodyCloseTag.data.length), rfl⟩
    · rw [injectPixel_at html trackingId rand hid hrand h]
      simp [List.append_assoc]
    · have := findIdx_decomp h
      conv_rhs => rw [this]
      simp [List.append_assoc]
  · intro h
    simp [injectPixel, h]

/-- Claim C7, witness: the amended theorem at a concrete body-tagged
markup and at a concrete markup without a body tag. -/
theorem c7_inject_one_marker_witness :
    noDollar "id1" = true
    ∧ (∃ a b : List Char,
        (injectPixel "<html><body>hi</body></html>" "id1" "r8").data
            = a ++ (pixelStr "id1" "r8").data ++ b
          ∧ a ++ b = ("<html><body>hi</body></html>" : String).data
          ∧ ∃ c, b = bodyCloseTag.data ++ c)
    ∧ injectPixel "<p>hi</p>" "id1" "r8" = "<p>hi</p>" ++ pixelStr "id1" "r8" := by
  refine ⟨by decide, ?_, ?_⟩
  · exact (c7_inject_one_marker "<html><body>hi</body></html>" "id1" "r8"
      (by decide) (by decide)).2.1 (by decide)
  · exact (c7_inject_one_marker "<p>hi</p>" "id1" "r8"
      (by decide) (by decide)).2.2 (by decide)

/-- Claim C7, counterexample: for the tracking id consisting of a dollar
sign and an ampersand, the JS replacement pattern fires and the result of
`injectPixel` on a body-tagged markup contains no occurrence of the id at
all — so no marker in the result embeds the tracking id, against the
quantification of the claim over every tracking id. -/
theorem c7_counterexample :
    strIncludes (injectPixel "<body>hi</body>" (String.mk [dollarChar, ampChar]) "ab")
        (String.mk [dollarChar, ampChar]) = false
    ∧ strIncludes (pixelStr (String.mk [dollarChar, ampChar]) "ab")
        (String.mk [dollarChar, ampChar]) = true := by
  refine ⟨by decide, by decide⟩

/-- Claim C8: for an authenticated store (API key and sender email load
successfully), `registerTrack` fails with the quota error — carrying the
upgrade hint — exactly when the backend answered 429, fails with the
generic backend error carrying status and body on every other non-success
response, and resolves with the acknowledgment on every success
response. -/
theorem c8_register_error_mapping (fs : FileState) (inp : TrackInput)
    (resp : HttpResponse) (k em : String)
    (hk : getApiKey fs = .ok k) (he : getUserEmail fs = .ok em) :
    (registerTrack fs inp resp = .error (.rateLimited rateLimitMsg) ↔ resp.status = 429)
    ∧ (respOk resp = false → resp.status ≠ 429 →
        registerTrack fs inp resp = .error (.backendError resp.status resp.body))
    ∧ (respOk resp = true → registerTrack fs inp resp = .ok resp.body) := by
  unfold registerTrack
  rw [hk, he]
  by_cases hok : respOk resp = true
  · have h429 : resp.status ≠ 429 := by
      intro hc
      unfold respOk at hok
      rw [hc] at hok
      exact absurd hok (by decide)
    simp [hok, h429]
  · have hok' : respOk resp = false := Bool.eq_false_iff.mpr hok
    by_cases h429 : resp.status = 429
    · simp [hok', h429]
    · simp [hok', h429]

/-- Claim C8, witness: on the example store, a 429 yields the quota error,
a 500 yields the generic error with status and body, and a 200 resolves
with the body. -/
theorem c8_register_error_mapping_witness :
    getApiKey (.stored cfgFull) = .ok "key-1"
    ∧ registerTrack (.stored cfgFull) ⟨"t1", "r@example.org", some "subj"⟩ ⟨429, "limit"⟩
        = .error (.rateLimited rateLimitMsg)
    ∧ registerTrack (.stored cfgFull) ⟨"t1", "r@example.org", some "subj"⟩ ⟨500, "boom"⟩
        = .error (.backendError 500 "boom")
    ∧ registerTrack (.stored cfgFull) ⟨"t1", "r@example.org", some "subj"⟩ ⟨200, "ok"⟩
        = .ok "ok" := by
  refine ⟨rfl, ?_, ?_, ?_⟩
  · exact (c8_register_error_mapping (.stored cfgFull) ⟨"t1", "r@example.org", some "subj"⟩
      ⟨429, "limit"⟩ "key-1" "user@example.com" rfl rfl).1.mpr rfl
  · exact (c8_register_error_mapping (.stored cfgFull) ⟨"t1", "r@example.org", some "subj"⟩
      ⟨500, "boom"⟩ "key-1" "user@example.com" rfl rfl).2.1 (by decide) (by decide)
  · exact (c8_register_error_mapping (.stored cfgFull) ⟨"t1", "r@example.org", some "subj"⟩
      ⟨200, "ok"⟩ "key-1" "user@example.com" rfl rfl).2.2 (by decide)

/-- On a 429 response `registerTrack` never resolves, whatever the store
state. -/
theorem registerTrack_429_not_ok (fs : FileState) (inp : TrackInput)
    (resp : HttpResponse) (h : resp.status = 429) :
    ∀ a, registerTrack fs inp resp ≠ .ok a := by
  intro a
  unfold registerTrack
  cases hk : getApiKey fs with
  | error e => simp
  | ok k =>
    cases he : getUserEmail fs with
    | error e => simp
    | ok em =>
      have hok : respOk resp = false := by
        unfold respOk
        rw [h]
        decide
      simp [hok, h]

/-- Claim C2: in every tracked-send run, of the CLI `send` action or of
the MCP `send_tracked_email` tool, the Gmail send step appears in the
trace only as the second step after a successful registration of the same
tracking id; whenever registration fails — in particular on a 429 quota
response — the Gmail send step is absent from the trace. -/
theorem c2_register_before_send (fs : FileState) (rawHtml : Bool)
    (bodyText md toAddr subject tid rand : String)
    (regResp : HttpResponse) (gres : Except DtError String) :
    ((sendTrackedCli fs rawHtml bodyText md toAddr subject tid rand regResp gres).events.any
        SendEvent.isSend = true →
      (sendTrackedCli fs rawHtml bodyText md toAddr subject tid rand regResp gres).events
          = [.registerCall tid,
             .gmailSend (injectPixel (if rawHtml then bodyText else wrapHtml md) tid rand)]
        ∧ ∃ a, registerTrack fs ⟨tid, toAddr, some subject⟩ regResp = .ok a)
    ∧ (∀ e, registerTrack fs ⟨tid, toAddr, some subject⟩ regResp = .error e →
        (sendTrackedCli fs rawHtml bodyText md toAddr subject tid rand regResp gres).events.any
          SendEvent.isSend = false)
    ∧ (regResp.status = 429 →
        (sendTrackedCli fs rawHtml bodyText md toAddr subject tid rand regResp gres).events.any
          SendEvent.isSend = false)
    ∧ ((sendTrackedMcp fs rawHtml bodyText md toAddr subject tid rand regResp gres).events.any
        SendEvent.isSend = true →
      (sendTrackedMcp fs rawHtml bodyText md toAddr subject tid rand regResp gres).events
          = [.registerCall tid,
             .gmailSend (injectPixel (if rawHtml then bodyText else wrapHtml md) tid rand)]
        ∧ ∃ a, registerTrack fs ⟨tid, toAddr, some subject⟩ regResp = .ok a)
    ∧ (∀ e, registerTrack fs ⟨tid, toAddr, some subject⟩ regResp = .error e →
        (sendTrackedMcp fs rawHtml bodyText md toAddr subject tid rand regResp gres).events.any
          SendEvent.isSend = false)
    ∧ (regResp.status = 429 →
        (sendTrackedMcp fs rawHtml bodyText md toAddr subject tid rand regResp gres).events.any
          SendEvent.isSend = false) := by
  cases hauth : isAuthenticatedE fs with
  | error e =>
      simp [sendTrackedCli, sendTrackedMcp, hauth]
  | ok b =>
    cases b with
    | false => simp [sendTrackedCli, sendTrackedMcp, hauth]
    | true =>
      cases hreg : registerTrack fs ⟨tid, toAddr, some subject⟩ regResp with
      | error e =>
          refine ⟨?_, ?_, ?_, ?_, ?_, ?_⟩ <;>
            simp [sendTrackedCli, sendTrackedMcp, hauth, hreg, SendEvent.isSend]
      | ok a =>
          have h429 : regResp.status = 429 → False := fun hc =>
            registerTrack_429_not_ok fs ⟨tid, toAddr, some subject⟩ regResp hc a hreg
          refine ⟨?_, ?_, ?_, ?_, ?_, ?_⟩ <;>
            simp [sendTrackedCli, sendTrackedMcp, hauth, hreg, SendEvent.isSend]
          all_goals exact h429

/-- Claim C2, witness: on the example store with a 429 quota response, the
Gmail send step is absent from both the CLI and the MCP trace. -/
theorem c2_register_before_send_witness :
    (sendTrackedCli (.stored cfgFull) false "b" "<p>b</p>" "r@example.org" "s" "t1" "r8"
        ⟨429, "limit"⟩ (.ok "sent")).events.any SendEvent.isSend = false
    ∧ (sendTrackedMcp (.stored cfgFull) false "b" "<p>b</p>" "r@example.org" "s" "t1" "r8"
        ⟨429, "limit"⟩ (.ok "sent")).events.any SendEvent.isSend = false := by
  have h := c2_register_before_send (.stored cfgFull) false "b" "<p>b</p>" "r@example.org"
    "s" "t1" "r8" ⟨429, "limit"⟩ (.ok "sent")
  exact ⟨h.2.2.1 rfl, h.2.2.2.2.2 rfl⟩

/-- Claim C5, evaluated at the failing input: when provisioning fails with
a non-success HTTP response whose JSON body lacks `apiKey` (the code never
checks `provisionRes.ok`), the login run completes with all OAuth fields
persisted and `isAuthenticated()` false — but no warning is surfaced,
against the claim; the contrasting conjunct shows the warning does appear
when the provisioning fetch throws. -/
theorem c5_provision_http_failure :
    (authenticate (some "ci") (some "cs") (.returned toksFresh)
        (.returned "user@example.com") (.returned ⟨none⟩) "dev-1" .absent).warned = false
    ∧ (authenticate (some "ci") (some "cs") (.returned toksFresh)
        (.returned "user@example.com") (.returned ⟨none⟩) "dev-1" .absent).fs
        = .stored
            { clientId := some "ci", clientSecret := some "cs",
              redirectUri := some redirectUriDefault, tokens := some toksFresh,
              email := some "user@example.com", deviceId := some "dev-1",
              apiKey := none }
    ∧ specHasRefreshTokenAndApiKey
        (authenticate (some "ci") (some "cs") (.returned toksFresh)
          (.returned "user@example.com") (.returned ⟨none⟩) "dev-1" .absent).fs = false
    ∧ (authenticate (some "ci") (some "cs") (.returned toksFresh)
        (.returned "user@example.com") (.thrown "network down") "dev-1" .absent).warned
        = true := by
  refine ⟨rfl, rfl, by decide, rfl⟩

/-- The serialized credential record is never the empty string. -/
theorem serializeConfig_ne_empty (cfg : Config) : serializeConfig cfg ≠ "" := by
  intro h
  have h2 : (serializeConfig cfg).data = [] := by rw [h]
  unfold serializeConfig at h2
  simp only [strDataAppend, List.append_assoc] at h2
  rcases List.append_eq_nil.mp h2 with ⟨hA, _⟩
  exact absurd hA (by decide)

/-- The empty content — the instant after the direct overwrite truncates
the file — is observable at the token path during every `saveConfig`
trace. -/
theorem saveVisible_empty (home : String) (dirExists : Bool) (cfg : Config)
    (prev : Option String) :
    some "" ∈ opsVisibleAt (tokenPath home) prev (saveConfigOps home dirExists cfg) := by
  have h0 : ("" : String) ∈ strPrefixes (serializeConfig cfg) := by
    unfold strPrefixes
    exact List.mem_map.mpr ⟨0, List.mem_range.mpr (by omega), rfl⟩
  have hmem : some "" ∈ (strPrefixes (serializeConfig cfg)).map some
      ++ [some (serializeConfig cfg)] :=
    List.mem_append.mpr (Or.inl (List.mem_map.mpr ⟨"", h0, rfl⟩))
  cases dirExists with
  | true =>
      have e : saveConfigOps home true cfg
          = [FsOp.fileWrite (tokenPath home) (serializeConfig cfg) 0o600] := rfl
      rw [e]
      simp only [opsVisibleAt]
      rw [if_pos trivial]
      exact hmem
  | false =>
      have e : saveConfigOps home false cfg
          = [FsOp.mkdirRec (configDirPath home) 0o700,
             FsOp.fileWrite (tokenPath home) (serializeConfig cfg) 0o600] := rfl
      rw [e]
      simp only [opsVisibleAt]
      rw [if_pos trivial]
      exact List.mem_cons_of_mem _ hmem

/-- Claim C6, counterexample: on a concrete store whose previous content
is `OLD`, a concurrent reader of the token path can observe a content that
is neither the previous record nor the new one while `saveConfig` runs —
the write is a direct overwrite, not a write-to-temp-then-rename. -/
theorem c6_counterexample :
    ¬ (∀ v ∈ opsVisibleAt (tokenPath "/home/u") (some "OLD")
          (saveConfigOps "/home/u" true cfgFull),
        v = some "OLD" ∨ v = some (serializeConfig cfgFull)) := by
  intro hall
  have h := hall (some "") (saveVisible_empty "/home/u" true cfgFull (some "OLD"))
  rcases h with h | h
  · exact absurd h (by decide)
  · exact serializeConfig_ne_empty cfgFull (Option.some.inj h).symm

/-- Claim C6, amended: `saveConfig` creates the containing directory with
owner-only permissions (mode `0o700`) when absent and then persists the
full record with a single direct write of the file (mode `0o600`); the
write is not atomic — no temp-file-and-rename — so a torn intermediate
content (witnessed by the truncated empty state) is observable to a
concurrent reader whenever the previous content was not itself empty. -/
theorem c6_save_direct_write (home : String) (dirExists : Bool) (cfg : Config)
    (prev : Option String) (hprev : prev ≠ some "") :
    saveConfigOps home dirExists cfg
        = (if dirExists then [] else [.mkdirRec (configDirPath home) 0o700])
          ++ [.fileWrite (tokenPath home) (serializeConfig cfg) 0o600]
    ∧ ∃ v ∈ opsVisibleAt (tokenPath home) prev (saveConfigOps home dirExists cfg),
        v ≠ prev ∧ v ≠ some (serializeConfig cfg) := by
  refine ⟨rfl, some "", saveVisible_empty home dirExists cfg prev, ?_, ?_⟩
  · intro hc
    exact hprev hc.symm
  · intro hc
    exact serializeConfig_ne_empty cfg (Option.some.inj hc).symm

/-- Claim C6, witness: the amended theorem at a concrete home, store and
record. -/
theorem c6_save_direct_write_witness :
    (none : Option String) ≠ some ""
    ∧ saveConfigOps "/home/u" false cfgFull
        = [.mkdirRec (configDirPath "/home/u") 0o700,
           .fileWrite (tokenPath "/home/u") (serializeConfig cfgFull) 0o600]
    ∧ ∃ v ∈ opsVisibleAt (tokenPath "/home/u") none (saveConfigOps "/home/u" false cfgFull),
        v ≠ none ∧ v ≠ some (serializeConfig cfgFull) := by
  have h := c6_save_direct_write "/home/u" false cfgFull none (by decide)
  exact ⟨by decide, h.1, h.2⟩

/-- Claim C9 (modelled from the spec, the function `logout` not being
among the provided sources): clearing the store removes the record for
every starting state, clearing an already-absent store succeeds, and any
positive number of consecutive clears leaves the store absent without an
error. -/
theorem c9_logout_idempotent (fs : FileState) (n : Nat) :
    logoutClear fs = .ok .absent
    ∧ logoutClear .absent = .ok .absent
    ∧ logoutClearN (n + 1) fs = .ok .absent := by
  refine ⟨by cases fs <;> rfl, rfl, ?_⟩
  induction n with
  | zero => cases fs <;> rfl
  | succ k ih =>
      show (logoutClearN (k + 1) fs).bind logoutClear = .ok .absent
      rw [ih]
      rfl

end DoubleTick
